import Mathlib

/-!
Shallow embedding of the lifecycle synchronization core of the ITAD frontend
(booking/job/commission/invoice status state machines and their cascades),
translated from the mock service implementations in
`src/services/booking.service.ts`, `src/services/invoices.service.ts`,
`src/services/commission.service.ts` (unnamed part 005),
`src/services/sanitisation.service.ts` and `src/services/grading.service.ts`.

Modelling conventions:
- Timestamps (ISO strings produced by `new Date().toISOString()`) are modelled
  as an abstract clock value `now : Nat` (epoch days for invoice dates, so that
  the 30-day due-date offset is plain addition, exactly as the UTC millisecond
  arithmetic of the source behaves).
- `Math.round` applied to a non-negative quotient `num / den` is modelled in
  exact arithmetic as `roundHalfUp num den = (2 * num + den) / (2 * den)`
  (floor of `num / den + 1 / 2`).
- The globally mutated mock arrays (`mockBookings`, `mockJobs`,
  `mockCommissions`, `mockInvoices`, record arrays) are gathered in a state
  record `St`; in-place mutation of the entity located by `find` becomes
  `updateFirst`, which rewrites the first list element matching the predicate.
- Thrown `ApiError`s become `Except` errors carrying the same discriminating
  payload (entity id, current status, requested status, allowed next statuses).
  The error-simulation branches (`shouldSimulateError`) and artificial delays
  of the mocks are not part of the business rules and are not modelled.
-/

namespace ERPSync

/-- Booking lifecycle statuses (the `Booking.status` union type). -/
inductive BookingStatus
  | created
  | scheduled
  | collected
  | sanitised
  | graded
  | completed
  | cancelled
deriving DecidableEq, Repr

/-- Job lifecycle statuses (`src/types/jobs.ts`); `enRoute` renders `en-route`. -/
inductive JobStatus
  | booked
  | routed
  | enRoute
  | arrived
  | collected
  | warehouse
  | sanitised
  | graded
  | finalised
deriving DecidableEq, Repr

/-- Commission lifecycle statuses. -/
inductive CommissionStatus
  | pending
  | approved
  | paid
deriving DecidableEq, Repr

/-- Invoice lifecycle statuses. -/
inductive InvoiceStatus
  | draft
  | sent
  | paid
  | overdue
  | cancelled
deriving DecidableEq, Repr

/-- One asset line item of a booking (category + quantity). -/
structure Asset where
  categoryId : String
  quantity : Nat
deriving DecidableEq, Repr

/-- Driver info carried on a job (`job.driver`); the optional `id` reflects
that jobs created by `assignDriverMock` store the driver without an id. -/
structure DriverInfo where
  id : Option String
  name : String
deriving DecidableEq, Repr

/-- Booking entity (fields used by the lifecycle services). -/
structure Booking where
  id : String
  bookingNumber : String
  clientId : String
  clientName : String
  resellerId : Option String
  resellerName : Option String
  status : BookingStatus
  assets : List Asset
  estimatedCO2e : Nat
  estimatedBuyback : Nat
  charityPercent : Nat
  jobId : Option String
  driverId : Option String
  driverName : Option String
  scheduledBy : Option String
  scheduledAt : Option Nat
  sanitisedAt : Option Nat
  gradedAt : Option Nat
  completedAt : Option Nat
deriving DecidableEq, Repr

/-- Job entity (fields used by the lifecycle services). -/
structure Job where
  id : String
  bookingId : String
  status : JobStatus
  assets : List Asset
  driver : Option DriverInfo
  co2eSaved : Nat
  buybackValue : Nat
  charityPercent : Nat
  completedDate : Option Nat
deriving DecidableEq, Repr

/-- Commission entity. -/
structure Commission where
  id : String
  resellerId : String
  resellerName : String
  clientId : String
  bookingId : String
  commissionPercent : Nat
  jobValue : Nat
  commissionAmount : Nat
  status : CommissionStatus
  period : String
  paidDate : Option Nat
deriving DecidableEq, Repr

/-- One line item of an invoice. -/
structure InvoiceItem where
  quantity : Nat
  unitPrice : Nat
  total : Nat
deriving DecidableEq, Repr

/-- Invoice entity. -/
structure Invoice where
  id : String
  clientId : String
  jobId : String
  issueDate : Nat
  dueDate : Nat
  amount : Nat
  status : InvoiceStatus
  items : List InvoiceItem
  subtotal : Nat
  tax : Nat
  total : Nat
deriving DecidableEq, Repr

/-- Sanitisation evidence record; `assetId` holds the asset category id. -/
structure SanitisationRecord where
  id : String
  bookingId : String
  assetId : String
  method : String
  performedBy : String
  timestamp : Nat
  verified : Bool
deriving DecidableEq, Repr

/-- Grading evidence record; `assetId` holds the asset category id. -/
structure GradingRecord where
  id : String
  bookingId : String
  assetId : String
  assetCategory : String
  grade : String
  resaleValue : Nat
  gradedAt : Nat
  gradedBy : String
deriving DecidableEq, Repr

/-- The shared mutable mock arrays, gathered into one state record. -/
structure St where
  bookings : List Booking
  jobs : List Job
  commissions : List Commission
  invoices : List Invoice
  sanitisationRecords : List SanitisationRecord
  gradingRecords : List GradingRecord
deriving DecidableEq, Repr

/-- Rewrite the first element satisfying `p` by `f` (models in-place mutation
of the entity returned by `Array.prototype.find`). -/
def updateFirst (p : α → Bool) (f : α → α) : List α → List α
  | [] => []
  | x :: xs => if p x then f x :: xs else x :: updateFirst p f xs

/-- Exact model of `Math.round (num / den)` for non-negative operands:
floor of `num / den + 1 / 2`. For `den = 0` this returns 0 (the source never
divides by zero on the paths the claims quantify over). -/
def roundHalfUp (num den : Nat) : Nat := (2 * num + den) / (2 * den)

/-- The `validTransitions` table of `updateBookingStatusMock`; statuses absent
from the source record map to the `[]` the source obtains via `|| []`. -/
def bookingValidTransitions : BookingStatus → List BookingStatus
  | .created => [.scheduled]
  | .scheduled => [.collected]
  | .collected => [.sanitised]
  | .sanitised => [.graded]
  | .graded => [.completed]
  | .completed => []
  | .cancelled => []

/-- Timestamp stamping block of `updateBookingStatusMock` (stamp the milestone
the first time it is reached). -/
def stampBookingTimestamp (now : Nat) (status : BookingStatus) (b : Booking) : Booking :=
  if status = .sanitised ∧ b.sanitisedAt = none then { b with sanitisedAt := some now }
  else if status = .graded ∧ b.gradedAt = none then { b with gradedAt := some now }
  else if status = .completed ∧ b.completedAt = none then { b with completedAt := some now }
  else b

/-- Booking→Job sync block of `updateBookingStatusMock` (conditional cascade:
the job advances only from the prerequisite state). -/
def syncJobOnBookingStatus (now : Nat) (status : BookingStatus) (j : Job) : Job :=
  if status = .sanitised ∧ j.status = .warehouse then { j with status := .sanitised }
  else if status = .graded ∧ j.status = .sanitised then { j with status := .graded }
  else if status = .completed ∧ j.status = .graded then
    { j with status := .finalised, completedDate := some now }
  else j

/-- Errors of `updateBookingStatusMock`. -/
inductive BookingUpdateError
  | notFound (bookingId : String)
  | invalidTransition (bookingId : String) (currentStatus : BookingStatus)
      (requestedStatus : BookingStatus) (allowedNext : List BookingStatus)
deriving DecidableEq, Repr

/-- `updateBookingStatusMock(bookingId, status)` of `booking.service.ts`. -/
def updateBookingStatusMock (bookingId : String) (status : BookingStatus) (now : Nat)
    (st : St) : Except BookingUpdateError (Booking × St) :=
  match st.bookings.find? (fun b => b.id == bookingId) with
  | none => .error (.notFound bookingId)
  | some booking =>
    let currentStatus := booking.status
    let allowedNextStatuses := bookingValidTransitions currentStatus
    if status ≠ currentStatus ∧ 0 < allowedNextStatuses.length ∧ ¬ status ∈ allowedNextStatuses then
      .error (.invalidTransition bookingId currentStatus status allowedNextStatuses)
    else
      let b1 := stampBookingTimestamp now status { booking with status := status }
      let newJobs :=
        match booking.jobId with
        | none => st.jobs
        | some jid => updateFirst (fun j => j.id == jid) (syncJobOnBookingStatus now status) st.jobs
      let st1 :=
        { st with
          bookings := updateFirst (fun b => b.id == bookingId) (fun _ => b1) st.bookings
          jobs := newJobs }
      .ok (b1, st1)

/-- Clock value for `completeBookingMock`: the source derives the milestone
timestamps, the invoice issue/due dates and the commission period from the one
`Date` taken at call time; `stamp` abstracts the instant (epoch days) and
`yearMonth` its `YYYY-MM` rendering (`toISOString().slice(0, 7)`). -/
structure Time where
  stamp : Nat
  yearMonth : String
deriving DecidableEq, Repr

/-- Errors of `completeBookingMock` (only `graded` bookings can be completed). -/
inductive CompleteBookingError
  | notFound (bookingId : String)
  | invalidStatus (bookingId : String) (currentStatus : BookingStatus)
deriving DecidableEq, Repr

/-- Commission pushed by `completeBookingMock` when the booking carries both a
reseller id and a reseller name; `commissionPercent` is the fixed default 10 and
`Math.round(estimatedBuyback * (commissionPercent / 100))` is modelled exactly. -/
def commissionForBooking (booking : Booking) (now : Time) : Commission :=
  let commissionPercent := 10
  let commissionAmount := roundHalfUp (booking.estimatedBuyback * commissionPercent) 100
  { id := "comm-" ++ toString now.stamp
    resellerId := booking.resellerId.getD ""
    resellerName := booking.resellerName.getD ""
    clientId := booking.clientId
    bookingId := booking.id
    commissionPercent := commissionPercent
    jobValue := booking.estimatedBuyback
    commissionAmount := commissionAmount
    status := .pending
    period := now.yearMonth
    paidDate := none }

/-- Invoice pushed by `completeBookingMock`: one line item per asset category,
`unitPrice = Math.round(estimatedBuyback / totalQuantity)` (the source computes
the same constant quotient inside the per-item map), `total = unitPrice × qty`,
20 percent VAT rounded, due date 30 days after the issue date. -/
def invoiceForBooking (booking : Booking) (now : Time) : Invoice :=
  let items := booking.assets.map fun asset =>
    let unitPrice :=
      roundHalfUp booking.estimatedBuyback
        (booking.assets.foldl (fun sum a => sum + a.quantity) 0)
    { quantity := asset.quantity
      unitPrice := unitPrice
      total := unitPrice * asset.quantity : InvoiceItem }
  let subtotal := items.foldl (fun sum item => sum + item.total) 0
  let tax := roundHalfUp (subtotal * 20) 100
  let total := subtotal + tax
  { id := "inv-" ++ toString now.stamp
    clientId := booking.clientId
    jobId := booking.jobId.getD ""
    issueDate := now.stamp
    dueDate := now.stamp + 30
    amount := subtotal
    status := .draft
    items := items
    subtotal := subtotal
    tax := tax
    total := total }

/-- `completeBookingMock(bookingId, completedBy)` of `booking.service.ts`:
requires current status `graded`; sets `completed`, stamps `completedAt`,
finalises the linked job if it is in `graded`, then reactively pushes the
commission (iff reseller id and name are present) and the invoice (always). -/
def completeBookingMock (bookingId : String) (completedBy : String) (now : Time)
    (st : St) : Except CompleteBookingError (Booking × St) :=
  match st.bookings.find? (fun b => b.id == bookingId) with
  | none => .error (.notFound bookingId)
  | some booking =>
    if booking.status ≠ .graded then
      .error (.invalidStatus bookingId booking.status)
    else
      let b1 := { booking with status := .completed, completedAt := some now.stamp }
      let newJobs :=
        match booking.jobId with
        | none => st.jobs
        | some jid =>
          updateFirst (fun j => j.id == jid)
            (fun j =>
              if j.status = .graded then
                { j with status := .finalised, completedDate := some now.stamp }
              else j)
            st.jobs
      let newCommissions :=
        if booking.resellerId.isSome ∧ booking.resellerName.isSome then
          st.commissions ++ [commissionForBooking booking now]
        else st.commissions
      let newInvoices := st.invoices ++ [invoiceForBooking booking now]
      let st1 :=
        { st with
          bookings := updateFirst (fun b => b.id == bookingId) (fun _ => b1) st.bookings
          jobs := newJobs
          commissions := newCommissions
          invoices := newInvoices }
      .ok (b1, st1)

/-- Errors of `assignDriverMock` (only `created` bookings can be assigned). -/
inductive AssignDriverError
  | notFound (bookingId : String)
  | invalidStatus (bookingId : String) (currentStatus : BookingStatus)
deriving DecidableEq, Repr

/-- Driver-name resolution of `assignDriverMock`: look for an existing job whose
driver has the requested id, otherwise fall back to the default placeholder. -/
def resolveDriverName (driverId : String) (jobs : List Job) : String :=
  match jobs.find? (fun j =>
      match j.driver with
      | some d => d.id == some driverId
      | none => false) with
  | some j =>
    match j.driver with
    | some d => d.name
    | none => "Driver Name"
  | none => "Driver Name"

/-- `assignDriverMock(bookingId, driverId, scheduledBy)` of `booking.service.ts`:
requires status `created`; sets `scheduled`, records driver identity and the
scheduling actor/time, and — iff no job is linked yet — creates a `routed` job
copying the asset line items and valuation fields, linking both ways. -/
def assignDriverMock (bookingId : String) (driverId : String) (scheduledBy : String)
    (now : Nat) (st : St) : Except AssignDriverError (Booking × St) :=
  match st.bookings.find? (fun b => b.id == bookingId) with
  | none => .error (.notFound bookingId)
  | some booking =>
    if booking.status ≠ .created then
      .error (.invalidStatus bookingId booking.status)
    else
      let driverName := resolveDriverName driverId st.jobs
      let b1 :=
        { booking with
          status := .scheduled
          driverId := some driverId
          driverName := some driverName
          scheduledBy := some scheduledBy
          scheduledAt := some now }
      match booking.jobId with
      | some _ =>
        .ok (b1, { st with bookings := updateFirst (fun b => b.id == bookingId) (fun _ => b1) st.bookings })
      | none =>
        let jobId := "job-" ++ toString now
        let jobAssets := booking.assets.map fun asset =>
          { categoryId := asset.categoryId, quantity := asset.quantity : Asset }
        let newJob : Job :=
          { id := jobId
            bookingId := booking.id
            status := .routed
            assets := jobAssets
            driver := some { id := none, name := driverName }
            co2eSaved := booking.estimatedCO2e
            buybackValue := booking.estimatedBuyback
            charityPercent := booking.charityPercent
            completedDate := none }
        let b2 := { b1 with jobId := some jobId }
        .ok (b2,
          { st with
            bookings := updateFirst (fun b => b.id == bookingId) (fun _ => b2) st.bookings
            jobs := st.jobs ++ [newJob] })

/-- The `validTransitions` table of `updateInvoiceStatusMock`. -/
def invoiceValidTransitions : InvoiceStatus → List InvoiceStatus
  | .draft => [.sent, .cancelled]
  | .sent => [.paid, .overdue, .cancelled]
  | .paid => [.cancelled]
  | .overdue => [.paid, .cancelled]
  | .cancelled => []

/-- Errors of `updateInvoiceStatusMock`. -/
inductive InvoiceUpdateError
  | notFound (invoiceId : String)
  | invalidTransition (invoiceId : String) (currentStatus : InvoiceStatus)
      (requestedStatus : InvoiceStatus) (allowedNext : List InvoiceStatus)
deriving DecidableEq, Repr

/-- `updateInvoiceStatusMock(invoiceId, status)` of `invoices.service.ts`:
the cancel request short-circuits before any validation; otherwise the same
validation shape as the booking service. -/
def updateInvoiceStatusMock (invoiceId : String) (status : InvoiceStatus)
    (st : St) : Except InvoiceUpdateError (Invoice × St) :=
  match st.invoices.find? (fun i => i.id == invoiceId) with
  | none => .error (.notFound invoiceId)
  | some invoice =>
    let currentStatus := invoice.status
    let allowedNextStatuses := invoiceValidTransitions currentStatus
    if status = .cancelled then
      let i1 := { invoice with status := InvoiceStatus.cancelled }
      .ok (i1, { st with invoices := updateFirst (fun i => i.id == invoiceId) (fun _ => i1) st.invoices })
    else if status ≠ currentStatus ∧ 0 < allowedNextStatuses.length ∧ ¬ status ∈ allowedNextStatuses then
      .error (.invalidTransition invoiceId currentStatus status allowedNextStatuses)
    else
      let i1 := { invoice with status := status }
      .ok (i1, { st with invoices := updateFirst (fun i => i.id == invoiceId) (fun _ => i1) st.invoices })

/-- The `validTransitions` table of `updateCommissionStatusMock`. -/
def commissionValidTransitions : CommissionStatus → List CommissionStatus
  | .pending => [.approved]
  | .approved => [.paid]
  | .paid => []

/-- Errors of `updateCommissionStatusMock`. -/
inductive CommissionUpdateError
  | notFound (commissionId : String)
  | invalidTransition (commissionId : String) (currentStatus : CommissionStatus)
      (requestedStatus : CommissionStatus) (allowedNext : List CommissionStatus)
deriving DecidableEq, Repr

/-- `updateCommissionStatusMock(commissionId, status)` of the commission
service: booking-style validation, then stamp `paidDate` the first time the
status reaches `paid`. -/
def updateCommissionStatusMock (commissionId : String) (status : CommissionStatus)
    (now : Nat) (st : St) : Except CommissionUpdateError (Commission × St) :=
  match st.commissions.find? (fun c => c.id == commissionId) with
  | none => .error (.notFound commissionId)
  | some commission =>
    let currentStatus := commission.status
    let allowedNextStatuses := commissionValidTransitions currentStatus
    if status ≠ currentStatus ∧ 0 < allowedNextStatuses.length ∧ ¬ status ∈ allowedNextStatuses then
      .error (.invalidTransition commissionId currentStatus status allowedNextStatuses)
    else
      let c1 := { commission with status := status }
      let c2 :=
        if status = .paid ∧ commission.paidDate = none then
          { c1 with paidDate := some now }
        else c1
      .ok (c2, { st with commissions := updateFirst (fun c => c.id == commissionId) (fun _ => c2) st.commissions })

/-- Completeness check of `createSanitisationRecordMock`: every asset category
of the booking is covered by some sanitisation record for this booking. -/
def allAssetsSanitised (records : List SanitisationRecord) (bookingId : String)
    (booking : Booking) : Bool :=
  let bookingRecords := records.filter (fun r => r.bookingId == bookingId)
  let sanitisedAssetIds := bookingRecords.map (fun r => r.assetId)
  booking.assets.all (fun asset => sanitisedAssetIds.contains asset.categoryId)

/-- `createSanitisationRecordMock(bookingId, assetId, method, performedBy)` of
`sanitisation.service.ts`: append the record unconditionally, then — when every
asset category of the booking is covered and the booking is in `collected` —
advance the booking to `sanitised` (stamping `sanitisedAt`) and cascade the
linked job from `warehouse` to `sanitised`; any other situation (booking
missing, predicate incomplete, other booking status, job elsewhere) leaves
bookings and jobs untouched. The operation never fails. -/
def createSanitisationRecordMock (bookingId : String) (assetId : String)
    (method : String) (performedBy : String) (now : Nat) (st : St) :
    SanitisationRecord × St :=
  let newRecord : SanitisationRecord :=
    { id := "sanit-" ++ toString now
      bookingId := bookingId
      assetId := assetId
      method := method
      performedBy := performedBy
      timestamp := now
      verified := false }
  let newRecords := st.sanitisationRecords ++ [newRecord]
  let st1 := { st with sanitisationRecords := newRecords }
  match st.bookings.find? (fun b => b.id == bookingId) with
  | none => (newRecord, st1)
  | some booking =>
    if allAssetsSanitised newRecords bookingId booking ∧ booking.status = .collected then
      let b1 := { booking with status := .sanitised, sanitisedAt := some now }
      let newJobs :=
        match booking.jobId with
        | none => st.jobs
        | some jid =>
          updateFirst (fun j => j.id == jid)
            (fun j => if j.status = .warehouse then { j with status := JobStatus.sanitised } else j)
            st.jobs
      (newRecord,
        { st1 with
          bookings := updateFirst (fun b => b.id == bookingId) (fun _ => b1) st.bookings
          jobs := newJobs })
    else (newRecord, st1)

/-- Grade multipliers of `grading.service.ts`, in tenths (A 1.0, B 0.7, C 0.4,
D 0.2, Recycled 0); an unknown grade yields 0 via the `|| 0` fallback. -/
def gradeMultiplierTenths (grade : String) : Nat :=
  if grade == "A" then 10
  else if grade == "B" then 7
  else if grade == "C" then 4
  else if grade == "D" then 2
  else if grade == "Recycled" then 0
  else 0

/-- Base per-unit resale values by category; unknown categories yield 0. -/
def baseResaleValue (category : String) : Nat :=
  if category == "laptop" then 85
  else if category == "desktop" then 45
  else if category == "monitor" then 25
  else if category == "server" then 250
  else if category == "phone" then 40
  else if category == "tablet" then 55
  else if category == "printer" then 15
  else if category == "network" then 35
  else 0

/-- Completeness check of `createGradingRecordMock`: every asset category of
the booking is covered by some grading record for this booking. -/
def allAssetsGraded (records : List GradingRecord) (bookingId : String)
    (booking : Booking) : Bool :=
  let bookingRecords := records.filter (fun r => r.bookingId == bookingId)
  let gradedAssetIds := bookingRecords.map (fun r => r.assetId)
  booking.assets.all (fun asset => gradedAssetIds.contains asset.categoryId)

/-- `createGradingRecordMock(bookingId, assetId, assetCategory, grade, gradedBy)`
of `grading.service.ts`: append the record (resale value =
`Math.round(baseValue × multiplier)` in exact arithmetic), then — when every
asset category of the booking is covered and the booking is in `sanitised` —
advance the booking to `graded` (stamping `gradedAt`) and cascade the linked
job from `sanitised` to `graded`; otherwise leave bookings and jobs untouched. -/
def createGradingRecordMock (bookingId : String) (assetId : String)
    (assetCategory : String) (grade : String) (gradedBy : String) (now : Nat)
    (st : St) : GradingRecord × St :=
  let resaleValue := roundHalfUp (baseResaleValue assetCategory * gradeMultiplierTenths grade) 10
  let newRecord : GradingRecord :=
    { id := "grade-" ++ toString now
      bookingId := bookingId
      assetId := assetId
      assetCategory := assetCategory
      grade := grade
      resaleValue := resaleValue
      gradedAt := now
      gradedBy := gradedBy }
  let newRecords := st.gradingRecords ++ [newRecord]
  let st1 := { st with gradingRecords := newRecords }
  match st.bookings.find? (fun b => b.id == bookingId) with
  | none => (newRecord, st1)
  | some booking =>
    if allAssetsGraded newRecords bookingId booking ∧ booking.status = .sanitised then
      let b1 := { booking with status := .graded, gradedAt := some now }
      let newJobs :=
        match booking.jobId with
        | none => st.jobs
        | some jid =>
          updateFirst (fun j => j.id == jid)
            (fun j => if j.status = .sanitised then { j with status := JobStatus.graded } else j)
            st.jobs
      (newRecord,
        { st1 with
          bookings := updateFirst (fun b => b.id == bookingId) (fun _ => b1) st.bookings
          jobs := newJobs })
    else (newRecord, st1)

/-- Modelled from the spec: the driver-facing Job legal-transition check lives
in `jobs.service.ts`, which is not among the source files (only the workflow
document and the booking service reference it). Following the words of §4.2:
driver steps `routed→en-route→arrived→collected→warehouse` plus the direct
`booked→en-route` shortcut as an alternative to stepping through `routed`
(jobs otherwise reach `routed` when a driver is assigned); the states past
`warehouse` are reachable only through the Booking cascade, never directly. -/
def jobLegalNextStatuses : JobStatus → List JobStatus
  | .booked => [.routed, .enRoute]
  | .routed => [.enRoute]
  | .enRoute => [.arrived]
  | .arrived => [.collected]
  | .collected => [.warehouse]
  | .warehouse => []
  | .sanitised => []
  | .graded => []
  | .finalised => []

/-- Legal-transition check on jobs (spec-modelled, see `jobLegalNextStatuses`). -/
def jobLegalTransition (fromStatus toStatus : JobStatus) : Bool :=
  (jobLegalNextStatuses fromStatus).contains toStatus

/-- User as seen by the commission service (role + tenant id). -/
structure User where
  role : String
  tenantId : String
deriving DecidableEq, Repr

/-- Role filter of `getCommissionsMock`: admin sees all, resellers see their
own commissions, every other role sees none; no user means no filtering. -/
def getCommissionsMock (user : Option User) (commissions : List Commission) :
    List Commission :=
  match user with
  | none => commissions
  | some u =>
    if u.role == "admin" then commissions
    else if u.role == "reseller" then commissions.filter (fun c => c.resellerId == u.tenantId)
    else []

/-- Summary shape returned by `getCommissionSummaryMock`; `byPeriod` is the
accumulated record keyed by period, as an association list in first-seen order. -/
structure CommissionSummary where
  totalPending : Nat
  totalApproved : Nat
  totalPaid : Nat
  totalAmount : Nat
  byPeriod : List (String × Nat)
deriving DecidableEq, Repr

/-- One step of the `byPeriod` accumulation:
`summary.byPeriod[c.period] = (summary.byPeriod[c.period] || 0) + c.commissionAmount`. -/
def addToPeriod (period : String) (amount : Nat) : List (String × Nat) → List (String × Nat)
  | [] => [(period, amount)]
  | (p, v) :: rest =>
    if p == period then (p, v + amount) :: rest
    else (p, v) :: addToPeriod period amount rest

/-- The `forEach` accumulation of `byPeriod` over the commission list. -/
def buildByPeriod (commissions : List Commission) : List (String × Nat) :=
  commissions.foldl (fun acc c => addToPeriod c.period c.commissionAmount acc) []

/-- The `reduce((sum, c) => sum + c.commissionAmount, 0)` accumulation. -/
def reduceAmount (commissions : List Commission) : Nat :=
  commissions.foldl (fun sum c => sum + c.commissionAmount) 0

/-- Summary computation of `getCommissionSummaryMock` on an already-filtered
commission list: per-status totals, grand total, and the per-period grouping. -/
def summarise (commissions : List Commission) : CommissionSummary :=
  { totalPending := reduceAmount (commissions.filter (fun c => c.status == .pending))
    totalApproved := reduceAmount (commissions.filter (fun c => c.status == .approved))
    totalPaid := reduceAmount (commissions.filter (fun c => c.status == .paid))
    totalAmount := reduceAmount commissions
    byPeriod := buildByPeriod commissions }

/-- `getCommissionSummaryMock(user)`: role-filter the commissions, then build
the summary. -/
def getCommissionSummaryMock (user : Option User) (commissions : List Commission) :
    CommissionSummary :=
  summarise (getCommissionsMock user commissions)

/-! Concrete fixtures used by the evaluation theorems and witnesses. -/

/-- Empty state fixture. -/
def emptySt : St :=
  { bookings := []
    jobs := []
    commissions := []
    invoices := []
    sanitisationRecords := []
    gradingRecords := [] }

/-- Booking fixture: the asset mix of the spec worked example
(laptop ×2, monitor ×3) with estimated buyback 500. -/
def baseBooking : Booking :=
  { id := "booking-1"
    bookingNumber := "BK-001"
    clientId := "client-1"
    clientName := "Client One"
    resellerId := none
    resellerName := none
    status := .created
    assets := [{ categoryId := "laptop", quantity := 2 }, { categoryId := "monitor", quantity := 3 }]
    estimatedCO2e := 120
    estimatedBuyback := 500
    charityPercent := 0
    jobId := none
    driverId := none
    driverName := none
    scheduledBy := none
    scheduledAt := none
    sanitisedAt := none
    gradedAt := none
    completedAt := none }

/-- Invoice fixture already in the terminal `cancelled` status. -/
def cancelledInvoice : Invoice :=
  { id := "inv-1"
    clientId := "client-1"
    jobId := ""
    issueDate := 0
    dueDate := 30
    amount := 500
    status := .cancelled
    items := []
    subtotal := 500
    tax := 100
    total := 600 }

/-- Commission fixture already in the terminal `paid` status. -/
def paidCommission : Commission :=
  { id := "comm-1"
    resellerId := "r1"
    resellerName := "Reseller One"
    clientId := "client-1"
    bookingId := "booking-1"
    commissionPercent := 10
    jobValue := 500
    commissionAmount := 50
    status := .paid
    period := "2024-12"
    paidDate := some 3 }

/-- State fixture with a single booking in `created` status and no job. -/
def stCreatedBooking : St := { emptySt with bookings := [baseBooking] }

/-- Booking fixture in `collected` status. -/
def collectedBooking : Booking := { baseBooking with status := .collected }

/-- State fixture: the collected booking plus a sanitisation record covering
only the laptop category (monitor still uncovered). -/
def stCollectedLaptopDone : St :=
  { emptySt with
    bookings := [collectedBooking]
    sanitisationRecords :=
      [{ id := "sanit-0"
         bookingId := "booking-1"
         assetId := "laptop"
         method := "blancco"
         performedBy := "user-1"
         timestamp := 3
         verified := true }] }

/-- Booking fixture in `graded` status without a reseller. -/
def gradedBooking : Booking := { baseBooking with status := .graded }

/-- State fixture with a single `graded` booking and no reseller. -/
def stGradedBooking : St := { emptySt with bookings := [gradedBooking] }

/-- State fixture with a single booking already in `completed`. -/
def stCompletedBooking : St :=
  { emptySt with bookings := [{ baseBooking with status := .completed, completedAt := some 5 }] }

/-- Booking fixture in `graded` status with a reseller attached. -/
def gradedResellerBooking : Booking :=
  { baseBooking with
    status := .graded
    resellerId := some "r1"
    resellerName := some "Reseller One" }

/-- State fixture with a single `graded` booking that has a reseller. -/
def stGradedResellerBooking : St :=
  { emptySt with bookings := [gradedResellerBooking] }

/-- State fixture with a single cancelled invoice. -/
def stCancelledInvoice : St := { emptySt with invoices := [cancelledInvoice] }

/-- State fixture with a single paid commission. -/
def stPaidCommission : St := { emptySt with commissions := [paidCommission] }

end ERPSync

namespace ERPSync

/-- C1. The booking transition validation only fires when the current status
has a non-empty allowed list, so a booking in the terminal `completed` status
accepts any requested status: requesting `created` on a completed booking
succeeds and rewinds the status, where the claim (and the transition table of
the workflow document) requires a ValidationError. -/
theorem booking_terminal_status_accepts_any_transition :
    ((updateBookingStatusMock "booking-1" BookingStatus.created 9 stCompletedBooking).toOption.map
      (fun p => p.1.status)) = some BookingStatus.created := by
  rfl

/-- C2 counterexample. A booking transitioning into `completed` through
`updateBookingStatusMock` (from `graded`, reseller present) triggers no
reactive creation at all: both the invoice and the commission lists stay
empty, refuting the claim that UpdateStatus performs the §4.4 creation. -/
theorem updateStatus_completed_creates_nothing :
    ((updateBookingStatusMock "booking-1" BookingStatus.completed 9 stGradedResellerBooking).toOption.map
      (fun p => (p.2.invoices.length, p.2.commissions.length))) = some (0, 0) := by
  rfl

/-- C3. The cancel shortcut of `updateInvoiceStatusMock` runs before any
validation and the table check is skipped for empty allowed lists, so an
invoice already in `cancelled` accepts every request: requesting `draft`
succeeds and leaves the terminal status, where the claim requires rejection. -/
theorem invoice_cancelled_accepts_any_transition :
    ((updateInvoiceStatusMock "inv-1" InvoiceStatus.draft stCancelledInvoice).toOption.map
      (fun p => p.1.status)) = some InvoiceStatus.draft := by
  rfl

/-- C4. The commission transition validation only fires when the allowed list
is non-empty, so a commission in the terminal `paid` status accepts any
requested status: requesting `pending` succeeds and leaves `paid`, where the
claim (and the `Paid is final status` comment of the source) requires a
ValidationError. -/
theorem commission_paid_accepts_any_transition :
    ((updateCommissionStatusMock "comm-1" CommissionStatus.pending 9 stPaidCommission).toOption.map
      (fun p => p.1.status)) = some CommissionStatus.pending := by
  rfl

/-- C9. The legal-transition check on jobs accepts the direct
`booked→en-route` shortcut (modelled from the spec, `jobs.service.ts` being
absent from the sources): a driver may bypass `routed`. -/
theorem job_booked_to_enroute_is_legal :
    jobLegalTransition JobStatus.booked JobStatus.enRoute = true := by
  rfl

/-! Helper lemmas for the commission summary identities. -/

theorem reduceAmount_acc (l : List Commission) (a : Nat) :
    l.foldl (fun sum c => sum + c.commissionAmount) a = a + reduceAmount l := by
  induction l generalizing a with
  | nil => simp [reduceAmount]
  | cons c l ih =>
    simp only [reduceAmount, List.foldl_cons]
    rw [ih, ih (0 + c.commissionAmount)]
    omega

theorem reduceAmount_cons (c : Commission) (l : List Commission) :
    reduceAmount (c :: l) = c.commissionAmount + reduceAmount l := by
  simp only [reduceAmount, List.foldl_cons]
  rw [reduceAmount_acc]
  simp only [reduceAmount]
  omega

theorem reduceAmount_split (l : List Commission) :
    reduceAmount l =
      reduceAmount (l.filter (fun c => c.status == .pending)) +
      reduceAmount (l.filter (fun c => c.status == .approved)) +
      reduceAmount (l.filter (fun c => c.status == .paid)) := by
  induction l with
  | nil => simp [reduceAmount]
  | cons c l ih =>
    cases hc : c.status with
    | pending =>
      have h1 : (c.status == CommissionStatus.pending) = true := by rw [hc]; rfl
      have h2 : (c.status == CommissionStatus.approved) = false := by rw [hc]; rfl
      have h3 : (c.status == CommissionStatus.paid) = false := by rw [hc]; rfl
      simp only [List.filter_cons, h1, h2, h3, if_true, if_false,
        Bool.false_eq_true, reduceAmount_cons]
      omega
    | approved =>
      have h1 : (c.status == CommissionStatus.pending) = false := by rw [hc]; rfl
      have h2 : (c.status == CommissionStatus.approved) = true := by rw [hc]; rfl
      have h3 : (c.status == CommissionStatus.paid) = false := by rw [hc]; rfl
      simp only [List.filter_cons, h1, h2, h3, if_true, if_false,
        Bool.false_eq_true, reduceAmount_cons]
      omega
    | paid =>
      have h1 : (c.status == CommissionStatus.pending) = false := by rw [hc]; rfl
      have h2 : (c.status == CommissionStatus.approved) = false := by rw [hc]; rfl
      have h3 : (c.status == CommissionStatus.paid) = true := by rw [hc]; rfl
      simp only [List.filter_cons, h1, h2, h3, if_true, if_false,
        Bool.false_eq_true, reduceAmount_cons]
      omega

/-- Sum of the values of the `byPeriod` association record. -/
def periodValuesSum (l : List (String × Nat)) : Nat :=
  l.foldl (fun sum p => sum + p.2) 0

theorem periodValuesSum_acc (l : List (String × Nat)) (a : Nat) :
    l.foldl (fun sum p => sum + p.2) a = a + periodValuesSum l := by
  induction l generalizing a with
  | nil => simp [periodValuesSum]
  | cons p l ih =>
    simp only [periodValuesSum, List.foldl_cons]
    rw [ih, ih (0 + p.2)]
    omega

theorem periodValuesSum_cons (p : String × Nat) (l : List (String × Nat)) :
    periodValuesSum (p :: l) = p.2 + periodValuesSum l := by
  simp only [periodValuesSum, List.foldl_cons]
  rw [periodValuesSum_acc]
  simp only [periodValuesSum]
  omega

theorem periodValuesSum_addToPeriod (period : String) (amount : Nat)
    (l : List (String × Nat)) :
    periodValuesSum (addToPeriod period amount l) = periodValuesSum l + amount := by
  induction l with
  | nil => simp [addToPeriod, periodValuesSum]
  | cons p l ih =>
    by_cases hp : (p.1 == period) = true
    · simp only [addToPeriod, hp, if_true, periodValuesSum_cons]
      omega
    · simp only [addToPeriod, hp, Bool.false_eq_true, if_false, periodValuesSum_cons]
      rw [ih]
      omega

theorem buildByPeriod_foldl (l : List Commission) (acc : List (String × Nat)) :
    periodValuesSum (l.foldl (fun a c => addToPeriod c.period c.commissionAmount a) acc) =
      periodValuesSum acc + reduceAmount l := by
  induction l generalizing acc with
  | nil => simp [reduceAmount]
  | cons c l ih =>
    simp only [List.foldl_cons]
    rw [ih, periodValuesSum_addToPeriod, reduceAmount_cons]
    omega

/-- C10. For every user and commission collection, the summary satisfies both
`totalAmount = totalPending + totalApproved + totalPaid` and
`sum of byPeriod values = totalAmount`: each commission has exactly one of the
three statuses and lands in exactly one period bucket. -/
theorem commission_summary_consistent (user : Option User) (commissions : List Commission) :
    (getCommissionSummaryMock user commissions).totalAmount =
        (getCommissionSummaryMock user commissions).totalPending +
        (getCommissionSummaryMock user commissions).totalApproved +
        (getCommissionSummaryMock user commissions).totalPaid ∧
      periodValuesSum (getCommissionSummaryMock user commissions).byPeriod =
        (getCommissionSummaryMock user commissions).totalAmount := by
  constructor
  · exact reduceAmount_split (getCommissionsMock user commissions)
  · have h := buildByPeriod_foldl (getCommissionsMock user commissions) []
    simpa [getCommissionSummaryMock, summarise, buildByPeriod, periodValuesSum] using h

/-! Success-shape lemmas for the booking operations, shared by several
claims below. -/

theorem completeBookingMock_ok (bookingId completedBy : String) (now : Time)
    (st : St) (b : Booking) (st2 : St)
    (h : completeBookingMock bookingId completedBy now st = .ok (b, st2)) :
    ∃ booking,
      st.bookings.find? (fun x => x.id == bookingId) = some booking ∧
      booking.status = .graded ∧
      b = { booking with status := .completed, completedAt := some now.stamp } ∧
      st2.invoices = st.invoices ++ [invoiceForBooking booking now] ∧
      st2.commissions =
        (if booking.resellerId.isSome ∧ booking.resellerName.isSome then
          st.commissions ++ [commissionForBooking booking now]
        else st.commissions) ∧
      st2.bookings = updateFirst (fun x => x.id == bookingId) (fun _ => b) st.bookings ∧
      st2.jobs =
        (match booking.jobId with
         | none => st.jobs
         | some jid =>
           updateFirst (fun j => j.id == jid)
             (fun j =>
               if j.status = .graded then
                 { j with status := .finalised, completedDate := some now.stamp }
               else j)
             st.jobs) := by
  unfold completeBookingMock at h
  split at h
  · exact absurd h (by simp)
  · rename_i booking hf
    split at h
    · exact absurd h (by simp)
    · rename_i hne
      simp only [Except.ok.injEq, Prod.mk.injEq] at h
      obtain ⟨hb, hst2⟩ := h
      refine ⟨booking, hf, not_not.mp hne, hb.symm, ?_, ?_, ?_, ?_⟩ <;> rw [← hst2]
      · rw [← hb]

theorem updateBookingStatusMock_ok (bookingId : String) (status : BookingStatus)
    (now : Nat) (st : St) (b : Booking) (st2 : St)
    (h : updateBookingStatusMock bookingId status now st = .ok (b, st2)) :
    st2.invoices = st.invoices ∧ st2.commissions = st.commissions := by
  unfold updateBookingStatusMock at h
  split at h
  · exact absurd h (by simp)
  · rename_i booking hf
    simp only [] at h
    by_cases hv : status ≠ booking.status ∧
        0 < (bookingValidTransitions booking.status).length ∧
        ¬ status ∈ bookingValidTransitions booking.status
    · rw [if_pos hv] at h
      exact absurd h (by simp)
    · rw [if_neg hv] at h
      simp only [Except.ok.injEq, Prod.mk.injEq] at h
      obtain ⟨_, hst2⟩ := h
      rw [← hst2]
      exact ⟨rfl, rfl⟩

/-- C2 (amended). Reactive Commission/Invoice creation happens exactly once,
synchronously, inside `completeBookingMock` before it returns: every successful
completion appends exactly one invoice and, iff the booking carries a reseller
id and name, exactly one commission. `updateBookingStatusMock` — including a
`graded→completed` transition — never performs any reactive creation. -/
theorem reactive_creation_once_in_completeBooking :
    (∀ (bookingId completedBy : String) (now : Time) (st : St) (b : Booking) (st2 : St),
      completeBookingMock bookingId completedBy now st = .ok (b, st2) →
        st2.invoices.length = st.invoices.length + 1 ∧
        st2.commissions.length =
          (if b.resellerId.isSome ∧ b.resellerName.isSome then
            st.commissions.length + 1
          else st.commissions.length)) ∧
    (∀ (bookingId : String) (status : BookingStatus) (now : Nat) (st : St)
        (b : Booking) (st2 : St),
      updateBookingStatusMock bookingId status now st = .ok (b, st2) →
        st2.invoices = st.invoices ∧ st2.commissions = st.commissions) := by
  constructor
  · intro bookingId completedBy now st b st2 h
    obtain ⟨booking, _, _, hb, hinv, hcomm, _, _⟩ :=
      completeBookingMock_ok bookingId completedBy now st b st2 h
    constructor
    · simp [hinv]
    · have hres : b.resellerId = booking.resellerId ∧ b.resellerName = booking.resellerName := by
        rw [hb]; exact ⟨rfl, rfl⟩
      rw [hcomm, hres.1, hres.2]
      by_cases hc : booking.resellerId.isSome ∧ booking.resellerName.isSome
      · rw [if_pos hc, if_pos hc]
        simp
      · rw [if_neg hc, if_neg hc]
  · exact updateBookingStatusMock_ok

/-- C2 witness: completing the concrete `graded` booking with a reseller
appends exactly one invoice. -/
theorem reactive_creation_once_in_completeBooking_witness :
    ((completeBookingMock "booking-1" "admin-1" (Time.mk 9 "2024-12")
        stGradedResellerBooking).toOption.map (fun p => p.2.invoices.length)) =
      some (stGradedResellerBooking.invoices.length + 1) := by
  cases hEq : completeBookingMock "booking-1" "admin-1" (Time.mk 9 "2024-12")
      stGradedResellerBooking with
  | error e =>
    have h0 : (completeBookingMock "booking-1" "admin-1" (Time.mk 9 "2024-12")
        stGradedResellerBooking).toOption = none := by rw [hEq]; rfl
    have h1 : (completeBookingMock "booking-1" "admin-1" (Time.mk 9 "2024-12")
        stGradedResellerBooking).toOption ≠ none := by decide
    exact absurd h0 h1
  | ok p =>
    have h2 := (reactive_creation_once_in_completeBooking.1 "booking-1" "admin-1"
      (Time.mk 9 "2024-12") stGradedResellerBooking p.1 p.2 (by rw [hEq])).1
    simp [Except.toOption, h2]

/-- Bridge between the integer arithmetic of the embedding and the rounding of
the spec formulas: for a positive denominator, `roundHalfUp num den` is the
round-half-up integer rounding of the exact quotient `num / den`. -/
theorem roundHalfUp_eq_round (num den : Nat) (h : 0 < den) :
    (roundHalfUp num den : ℤ) = round ((num : ℚ) / (den : ℚ)) := by
  have hden : (den : ℚ) ≠ 0 := Nat.cast_ne_zero.mpr h.ne'
  rw [round_eq]
  have heq : (num : ℚ) / den + 1 / 2 = ((2 * num + den : ℕ) : ℚ) / ((2 * den : ℕ) : ℚ) := by
    push_cast
    field_simp
    ring
  rw [heq]
  have h2 : (0 : ℚ) ≤ ((2 * num + den : ℕ) : ℚ) / ((2 * den : ℕ) : ℚ) := by positivity
  rw [← Int.natCast_floor_eq_floor h2, Nat.floor_div_eq_div]
  rfl

/-- C8. On booking completion a commission is created iff the booking carries
both a reseller id and a reseller name; the created commission has
`commissionAmount = round(estimatedBuyback × 10 / 100)`, starts `pending`, and
its period is the year-month of the creation instant; with no reseller the
commission list is unchanged. -/
theorem commission_creation_on_completion (bookingId completedBy : String)
    (now : Time) (st : St) (booking : Booking) (b : Booking) (st2 : St)
    (hfind : st.bookings.find? (fun x => x.id == bookingId) = some booking)
    (h : completeBookingMock bookingId completedBy now st = .ok (b, st2)) :
    (booking.resellerId.isSome ∧ booking.resellerName.isSome →
      st2.commissions = st.commissions ++ [commissionForBooking booking now] ∧
      ((commissionForBooking booking now).commissionAmount : ℤ) =
        round ((booking.estimatedBuyback : ℚ) * 10 / 100) ∧
      (commissionForBooking booking now).status = CommissionStatus.pending ∧
      (commissionForBooking booking now).period = now.yearMonth) ∧
    (¬ (booking.resellerId.isSome ∧ booking.resellerName.isSome) →
      st2.commissions = st.commissions) := by
  obtain ⟨booking2, hfind2, hgr, hb, hinv, hcomm, hbk, hjobs⟩ :=
    completeBookingMock_ok bookingId completedBy now st b st2 h
  rw [hfind] at hfind2
  have hb2 : booking2 = booking := by injection hfind2.symm
  rw [hb2] at hcomm
  constructor
  · intro hc
    refine ⟨?_, ?_, rfl, rfl⟩
    · rw [hcomm, if_pos hc]
    · have hamt : (commissionForBooking booking now).commissionAmount =
          roundHalfUp (booking.estimatedBuyback * 10) 100 := rfl
      rw [hamt, roundHalfUp_eq_round _ 100 (by norm_num)]
      norm_num
  · intro hc
    rw [hcomm, if_neg hc]

/-- C8 witness: completing the concrete graded booking with a reseller appends
exactly the computed commission (amount 50 on buyback 500, pending, period of
the clock). -/
theorem commission_creation_on_completion_witness :
    ((completeBookingMock "booking-1" "admin-1" (Time.mk 9 "2024-12")
        stGradedResellerBooking).toOption.map (fun p => p.2.commissions)) =
      some (stGradedResellerBooking.commissions ++
        [commissionForBooking gradedResellerBooking (Time.mk 9 "2024-12")]) := by
  cases hEq : completeBookingMock "booking-1" "admin-1" (Time.mk 9 "2024-12")
      stGradedResellerBooking with
  | error e =>
    have h0 : (completeBookingMock "booking-1" "admin-1" (Time.mk 9 "2024-12")
        stGradedResellerBooking).toOption = none := by rw [hEq]; rfl
    have h1 : (completeBookingMock "booking-1" "admin-1" (Time.mk 9 "2024-12")
        stGradedResellerBooking).toOption ≠ none := by decide
    exact absurd h0 h1
  | ok p =>
    have h2 := (commission_creation_on_completion "booking-1" "admin-1"
      (Time.mk 9 "2024-12") stGradedResellerBooking gradedResellerBooking p.1 p.2
      (by decide) (by rw [hEq])).1 (by decide)
    simp [Except.toOption, h2.1]

/-- Total quantity across all asset categories
(`booking.assets.reduce((sum, a) => sum + a.quantity, 0)`). -/
def totalQuantity (assets : List Asset) : Nat :=
  assets.foldl (fun sum a => sum + a.quantity) 0

/-- C7. Every booking completion appends exactly one invoice, regardless of
reseller, whose numbers follow the spec formulas: one line item per asset
category with `unitPrice = round(estimatedBuyback / totalQuantity)` and
`total = unitPrice × quantity`; `subtotal` the sum of line totals;
`tax = round(subtotal × 20 / 100)`; `total = subtotal + tax`;
`dueDate = issueDate + 30`; initial status `draft`. -/
theorem invoice_creation_on_completion (bookingId completedBy : String)
    (now : Time) (st : St) (booking : Booking) (b : Booking) (st2 : St)
    (hfind : st.bookings.find? (fun x => x.id == bookingId) = some booking)
    (hqty : 0 < totalQuantity booking.assets)
    (h : completeBookingMock bookingId completedBy now st = .ok (b, st2)) :
    st2.invoices = st.invoices ++ [invoiceForBooking booking now] ∧
    ((roundHalfUp booking.estimatedBuyback (totalQuantity booking.assets) : ℕ) : ℤ) =
      round ((booking.estimatedBuyback : ℚ) / (totalQuantity booking.assets : ℚ)) ∧
    (invoiceForBooking booking now).items =
      booking.assets.map (fun a =>
        { quantity := a.quantity
          unitPrice := roundHalfUp booking.estimatedBuyback (totalQuantity booking.assets)
          total := roundHalfUp booking.estimatedBuyback (totalQuantity booking.assets) * a.quantity }) ∧
    (invoiceForBooking booking now).subtotal =
      (invoiceForBooking booking now).items.foldl (fun sum item => sum + item.total) 0 ∧
    ((invoiceForBooking booking now).tax : ℤ) =
      round (((invoiceForBooking booking now).subtotal : ℚ) * 20 / 100) ∧
    (invoiceForBooking booking now).total =
      (invoiceForBooking booking now).subtotal + (invoiceForBooking booking now).tax ∧
    (invoiceForBooking booking now).dueDate = (invoiceForBooking booking now).issueDate + 30 ∧
    (invoiceForBooking booking now).status = InvoiceStatus.draft := by
  obtain ⟨booking2, hfind2, hgr, hb, hinv, hcomm, hbk, hjobs⟩ :=
    completeBookingMock_ok bookingId completedBy now st b st2 h
  rw [hfind] at hfind2
  have hb2 : booking2 = booking := by injection hfind2.symm
  rw [hb2] at hinv
  refine ⟨hinv, ?_, rfl, rfl, ?_, rfl, rfl, rfl⟩
  · exact roundHalfUp_eq_round _ _ hqty
  · have htax : (invoiceForBooking booking now).tax =
        roundHalfUp ((invoiceForBooking booking now).subtotal * 20) 100 := rfl
    rw [htax, roundHalfUp_eq_round _ 100 (by norm_num)]
    norm_num

/-- C7 witness: completing the concrete booking with assets laptop ×2 and
monitor ×3 and estimated buyback 500 yields one invoice with unit prices 100,
subtotal 500, tax 100, total 600, status `draft`. -/
theorem invoice_creation_on_completion_witness :
    ((completeBookingMock "booking-1" "admin-1" (Time.mk 9 "2024-12")
        stGradedBooking).toOption.map
      (fun p => p.2.invoices.map
        (fun i => (i.items.map (fun it => it.unitPrice), i.subtotal, i.tax, i.total, i.status)))) =
      some [([100, 100], 500, 100, 600, InvoiceStatus.draft)] := by
  cases hEq : completeBookingMock "booking-1" "admin-1" (Time.mk 9 "2024-12")
      stGradedBooking with
  | error e =>
    have h0 : (completeBookingMock "booking-1" "admin-1" (Time.mk 9 "2024-12")
        stGradedBooking).toOption = none := by rw [hEq]; rfl
    have h1 : (completeBookingMock "booking-1" "admin-1" (Time.mk 9 "2024-12")
        stGradedBooking).toOption ≠ none := by decide
    exact absurd h0 h1
  | ok p =>
    have h2 := invoice_creation_on_completion "booking-1" "admin-1"
      (Time.mk 9 "2024-12") stGradedBooking gradedBooking p.1 p.2
      (by decide) (by decide) (by rw [hEq])
    simp only [Except.toOption, Option.map, h2.1]
    rfl

/-- C6. AssignDriver fails with NotFound when the booking id does not resolve;
fails with ValidationError (reporting the current status) whenever the booking
is in any status other than `created`; on success sets the booking to
`scheduled` with driver identity and scheduling actor/time recorded, and — iff
no job was linked — creates a `routed` job copying the asset line items and the
valuation fields, with the bidirectional link
`booking.jobId = job.id ∧ job.bookingId = booking.id`. -/
theorem assignDriver_spec (bookingId driverId scheduledBy : String) (now : Nat) (st : St) :
    (st.bookings.find? (fun x => x.id == bookingId) = none →
      assignDriverMock bookingId driverId scheduledBy now st =
        .error (.notFound bookingId)) ∧
    (∀ booking, st.bookings.find? (fun x => x.id == bookingId) = some booking →
      booking.status ≠ .created →
      assignDriverMock bookingId driverId scheduledBy now st =
        .error (.invalidStatus bookingId booking.status)) ∧
    (∀ booking, st.bookings.find? (fun x => x.id == bookingId) = some booking →
      booking.status = .created → booking.jobId = none →
      ∃ b2 st2 j, assignDriverMock bookingId driverId scheduledBy now st = .ok (b2, st2) ∧
        b2.status = .scheduled ∧
        b2.driverId = some driverId ∧
        b2.scheduledBy = some scheduledBy ∧
        b2.scheduledAt = some now ∧
        st2.jobs = st.jobs ++ [j] ∧
        j.status = .routed ∧
        j.assets = booking.assets.map (fun a => { categoryId := a.categoryId, quantity := a.quantity }) ∧
        j.buybackValue = booking.estimatedBuyback ∧
        j.co2eSaved = booking.estimatedCO2e ∧
        b2.jobId = some j.id ∧
        j.bookingId = booking.id) ∧
    (∀ booking jid, st.bookings.find? (fun x => x.id == bookingId) = some booking →
      booking.status = .created → booking.jobId = some jid →
      ∃ b1 st2, assignDriverMock bookingId driverId scheduledBy now st = .ok (b1, st2) ∧
        st2.jobs = st.jobs ∧
        b1.jobId = some jid ∧
        b1.status = .scheduled) := by
  refine ⟨?_, ?_, ?_, ?_⟩
  · intro hf
    simp only [assignDriverMock, hf]
  · intro booking hf hne
    simp only [assignDriverMock, hf]
    rw [if_pos hne]
  · intro booking hf hcr hjob
    simp only [assignDriverMock, hf, hjob]
    rw [if_neg (by simp [hcr])]
    refine ⟨_, _,
      { id := "job-" ++ toString now
        bookingId := booking.id
        status := .routed
        assets := booking.assets.map (fun a => { categoryId := a.categoryId, quantity := a.quantity })
        driver := some { id := none, name := resolveDriverName driverId st.jobs }
        co2eSaved := booking.estimatedCO2e
        buybackValue := booking.estimatedBuyback
        charityPercent := booking.charityPercent
        completedDate := none },
      rfl, rfl, rfl, rfl, rfl, rfl, rfl, rfl, rfl, rfl, rfl, rfl⟩
  · intro booking jid hf hcr hjob
    simp only [assignDriverMock, hf, hjob]
    rw [if_neg (by simp [hcr])]
    exact ⟨_, _, rfl, rfl, rfl, rfl⟩

/-- C6 witness: assigning a driver to the concrete `created` booking succeeds
with the recorded driver identity and scheduling actor/time. -/
theorem assignDriver_spec_witness :
    ((assignDriverMock "booking-1" "driver-1" "admin-1" 7 stCreatedBooking).toOption.map
      (fun p => (p.1.status, p.1.driverId, p.1.scheduledBy, p.1.scheduledAt))) =
      some (BookingStatus.scheduled, some "driver-1", some "admin-1", some 7) := by
  cases hEq : assignDriverMock "booking-1" "driver-1" "admin-1" 7 stCreatedBooking with
  | error e =>
    have h0 : (assignDriverMock "booking-1" "driver-1" "admin-1" 7 stCreatedBooking).toOption =
        none := by rw [hEq]; rfl
    have h1 : (assignDriverMock "booking-1" "driver-1" "admin-1" 7 stCreatedBooking).toOption ≠
        none := by decide
    exact absurd h0 h1
  | ok p =>
    obtain ⟨b2, st2, j, hEq2, hst, hdrv, hsb, hsa, _, _, _, _, _, _, _⟩ :=
      (assignDriver_spec "booking-1" "driver-1" "admin-1" 7 stCreatedBooking).2.2.1
        baseBooking (by decide) (by decide) (by decide)
    rw [hEq] at hEq2
    have hp : (b2, st2) = p := by injection hEq2.symm
    rw [← hp]
    simp [Except.toOption, hst, hdrv, hsb, hsa]

/-- Completeness predicate of §4.3 for sanitisation, stated at the
specification level: every distinct asset category of the booking line items is
covered by some sanitisation record for this booking. -/
def sanitisationCovers (records : List SanitisationRecord) (bookingId : String)
    (booking : Booking) : Prop :=
  ∀ a ∈ booking.assets, ∃ r ∈ records, r.bookingId = bookingId ∧ r.assetId = a.categoryId

instance (records : List SanitisationRecord) (bookingId : String) (booking : Booking) :
    Decidable (sanitisationCovers records bookingId booking) := by
  unfold sanitisationCovers
  infer_instance

/-- Completeness predicate of §4.3 for grading, stated at the specification
level. -/
def gradingCovers (records : List GradingRecord) (bookingId : String)
    (booking : Booking) : Prop :=
  ∀ a ∈ booking.assets, ∃ r ∈ records, r.bookingId = bookingId ∧ r.assetId = a.categoryId

instance (records : List GradingRecord) (bookingId : String) (booking : Booking) :
    Decidable (gradingCovers records bookingId booking) := by
  unfold gradingCovers
  infer_instance

/-- The Boolean completeness check of the sanitisation service agrees with the
specification-level covering predicate. -/
theorem allAssetsSanitised_iff (records : List SanitisationRecord) (bookingId : String)
    (booking : Booking) :
    allAssetsSanitised records bookingId booking = true ↔
      sanitisationCovers records bookingId booking := by
  unfold allAssetsSanitised sanitisationCovers
  simp only [List.all_eq_true, List.elem_iff, List.mem_map, List.mem_filter, beq_iff_eq]
  constructor
  · intro h a ha
    obtain ⟨r, ⟨hr1, hr2⟩, hr3⟩ := h a ha
    exact ⟨r, hr1, hr2, hr3⟩
  · intro h a ha
    obtain ⟨r, hr1, hr2, hr3⟩ := h a ha
    exact ⟨r, ⟨hr1, hr2⟩, hr3⟩

/-- The Boolean completeness check of the grading service agrees with the
specification-level covering predicate. -/
theorem allAssetsGraded_iff (records : List GradingRecord) (bookingId : String)
    (booking : Booking) :
    allAssetsGraded records bookingId booking = true ↔
      gradingCovers records bookingId booking := by
  unfold allAssetsGraded gradingCovers
  simp only [List.all_eq_true, List.elem_iff, List.mem_map, List.mem_filter, beq_iff_eq]
  constructor
  · intro h a ha
    obtain ⟨r, ⟨hr1, hr2⟩, hr3⟩ := h a ha
    exact ⟨r, hr1, hr2, hr3⟩
  · intro h a ha
    obtain ⟨r, hr1, hr2, hr3⟩ := h a ha
    exact ⟨r, ⟨hr1, hr2⟩, hr3⟩

/-- C5. Record creation always appends (and returns) the new record; after the
append, when the covering predicate holds for the booking and the booking is in
the prerequisite status (`collected` for sanitisation, `sanitised` for
grading), the booking advances (`sanitised` resp. `graded`) with the milestone
timestamp stamped and the linked job cascades from its prerequisite state;
otherwise bookings and jobs are left untouched, as they are when the booking id
does not resolve. -/
theorem completeness_triggered_advancement :
    (∀ (bookingId assetId method performedBy : String) (now : Nat) (st : St)
        (out : SanitisationRecord × St),
      createSanitisationRecordMock bookingId assetId method performedBy now st = out →
      out.2.sanitisationRecords = st.sanitisationRecords ++ [out.1] ∧
      (∀ booking, st.bookings.find? (fun x => x.id == bookingId) = some booking →
        (sanitisationCovers out.2.sanitisationRecords bookingId booking ∧
            booking.status = .collected →
          out.2.bookings = updateFirst (fun x => x.id == bookingId)
            (fun _ => { booking with status := .sanitised, sanitisedAt := some now })
            st.bookings ∧
          out.2.jobs =
            (match booking.jobId with
             | none => st.jobs
             | some jid =>
               updateFirst (fun jb => jb.id == jid)
                 (fun jb =>
                   if jb.status = .warehouse then { jb with status := JobStatus.sanitised }
                   else jb)
                 st.jobs)) ∧
        (¬ (sanitisationCovers out.2.sanitisationRecords bookingId booking ∧
            booking.status = .collected) →
          out.2.bookings = st.bookings ∧ out.2.jobs = st.jobs)) ∧
      (st.bookings.find? (fun x => x.id == bookingId) = none →
        out.2.bookings = st.bookings ∧ out.2.jobs = st.jobs)) ∧
    (∀ (bookingId assetId assetCategory grade gradedBy : String) (now : Nat) (st : St)
        (out : GradingRecord × St),
      createGradingRecordMock bookingId assetId assetCategory grade gradedBy now st = out →
      out.2.gradingRecords = st.gradingRecords ++ [out.1] ∧
      (∀ booking, st.bookings.find? (fun x => x.id == bookingId) = some booking →
        (gradingCovers out.2.gradingRecords bookingId booking ∧
            booking.status = .sanitised →
          out.2.bookings = updateFirst (fun x => x.id == bookingId)
            (fun _ => { booking with status := .graded, gradedAt := some now })
            st.bookings ∧
          out.2.jobs =
            (match booking.jobId with
             | none => st.jobs
             | some jid =>
               updateFirst (fun jb => jb.id == jid)
                 (fun jb =>
                   if jb.status = .sanitised then { jb with status := JobStatus.graded }
                   else jb)
                 st.jobs)) ∧
        (¬ (gradingCovers out.2.gradingRecords bookingId booking ∧
            booking.status = .sanitised) →
          out.2.bookings = st.bookings ∧ out.2.jobs = st.jobs)) ∧
      (st.bookings.find? (fun x => x.id == bookingId) = none →
        out.2.bookings = st.bookings ∧ out.2.jobs = st.jobs)) := by
  constructor
  · intro bookingId assetId method performedBy now st out hout
    subst hout
    unfold createSanitisationRecordMock
    cases hf : st.bookings.find? (fun x => x.id == bookingId) with
    | none => simp [hf]
    | some booking =>
      simp only [hf]
      by_cases hcond :
          allAssetsSanitised
            (st.sanitisationRecords ++
              [{ id := "sanit-" ++ toString now
                 bookingId := bookingId
                 assetId := assetId
                 method := method
                 performedBy := performedBy
                 timestamp := now
                 verified := false }]) bookingId booking = true ∧
          booking.status = BookingStatus.collected
      · rw [if_pos hcond]
        refine ⟨rfl, ?_, ?_⟩
        · intro booking2 hfind
          have hb : booking = booking2 := by injection hfind
          subst hb
          constructor
          · intro _
            exact ⟨rfl, rfl⟩
          · intro hneg
            exact absurd ⟨(allAssetsSanitised_iff _ _ _).mp hcond.1, hcond.2⟩ hneg
        · intro hfind
          simp at hfind
      · rw [if_neg hcond]
        refine ⟨rfl, ?_, fun _ => ⟨rfl, rfl⟩⟩
        intro booking2 hfind
        have hb : booking = booking2 := by injection hfind
        subst hb
        constructor
        · intro hpos
          exact absurd ⟨(allAssetsSanitised_iff _ _ _).mpr hpos.1, hpos.2⟩ hcond
        · intro _
          exact ⟨rfl, rfl⟩
  · intro bookingId assetId assetCategory grade gradedBy now st out hout
    subst hout
    unfold createGradingRecordMock
    cases hf : st.bookings.find? (fun x => x.id == bookingId) with
    | none => simp [hf]
    | some booking =>
      simp only [hf]
      by_cases hcond :
          allAssetsGraded
            (st.gradingRecords ++
              [{ id := "grade-" ++ toString now
                 bookingId := bookingId
                 assetId := assetId
                 assetCategory := assetCategory
                 grade := grade
                 resaleValue := roundHalfUp (baseResaleValue assetCategory * gradeMultiplierTenths grade) 10
                 gradedAt := now
                 gradedBy := gradedBy }]) bookingId booking = true ∧
          booking.status = BookingStatus.sanitised
      · rw [if_pos hcond]
        refine ⟨rfl, ?_, ?_⟩
        · intro booking2 hfind
          have hb : booking = booking2 := by injection hfind
          subst hb
          constructor
          · intro _
            exact ⟨rfl, rfl⟩
          · intro hneg
            exact absurd ⟨(allAssetsGraded_iff _ _ _).mp hcond.1, hcond.2⟩ hneg
        · intro hfind
          simp at hfind
      · rw [if_neg hcond]
        refine ⟨rfl, ?_, fun _ => ⟨rfl, rfl⟩⟩
        intro booking2 hfind
        have hb : booking = booking2 := by injection hfind
        subst hb
        constructor
        · intro hpos
          exact absurd ⟨(allAssetsGraded_iff _ _ _).mpr hpos.1, hpos.2⟩ hcond
        · intro _
          exact ⟨rfl, rfl⟩

/-- C5 witness: recording sanitisation for the still-uncovered monitor
category of the concrete `collected` booking (laptop already covered) advances
the booking to `sanitised`. -/
theorem completeness_triggered_advancement_witness :
    ((createSanitisationRecordMock "booking-1" "monitor" "blancco" "user-1" 11
        stCollectedLaptopDone).2.bookings.map (fun b => (b.status, b.sanitisedAt))) =
      [(BookingStatus.sanitised, some 11)] := by
  obtain ⟨hrecords, hbook, _⟩ :=
    completeness_triggered_advancement.1 "booking-1" "monitor" "blancco" "user-1" 11
      stCollectedLaptopDone
      (createSanitisationRecordMock "booking-1" "monitor" "blancco" "user-1" 11
        stCollectedLaptopDone) rfl
  obtain ⟨hadv, _⟩ := hbook collectedBooking (by decide)
  have hcov : sanitisationCovers
      (createSanitisationRecordMock "booking-1" "monitor" "blancco" "user-1" 11
        stCollectedLaptopDone).2.sanitisationRecords "booking-1" collectedBooking ∧
      collectedBooking.status = .collected := by
    rw [hrecords]
    exact ⟨by decide, by decide⟩
  obtain ⟨hbk, _⟩ := hadv hcov
  rw [hbk]
  rfl

end ERPSync
